import Mathlib

/-! Backup / restore configuration schema (`util/br/pkg/config/config.go`)

The source file declares three Go struct types, `NodeInfo`, `BackupConfig` and
`RestoreConfig`, whose fields carry `yaml:"..."` struct tags.  The development
embeds

* the *values* of the three types as Lean structures (a Go slice is a `List`,
  a Go `string` is a `String`), and
* the *declarations* themselves as data (`StructDecl`): field name, field type
  and the raw tag text exactly as written between the back quotes,

together with the conventional reading of a struct tag (`key:"value"` pairs,
the value split at commas into the YAML key and its options).
-/

namespace Config

/-! ## Values -/

/-- Go `type NodeInfo struct`: four string fields. -/
structure NodeInfo where
  Addrs : String
  RootDir : String
  DataDir : String
  User : String
  deriving DecidableEq, Repr

/-- Go `type BackupConfig struct`: two slices of `NodeInfo`, a slice of
strings and a string. -/
structure BackupConfig where
  MetaNodes : List NodeInfo
  StorageNodes : List NodeInfo
  SpaceNames : List String
  BackendUrl : String
  deriving DecidableEq, Repr

/-- Go `type RestoreConfig struct`: two slices of `NodeInfo` and two strings. -/
structure RestoreConfig where
  MetaNodes : List NodeInfo
  StorageNodes : List NodeInfo
  BackendUrl : String
  BackupName : String
  deriving DecidableEq, Repr

/-- The Go zero value `BackupConfig{}`: nil slices and empty strings.  It is
also what decoding an empty YAML document into a `BackupConfig` leaves. -/
def zeroBackupConfig : BackupConfig :=
  { MetaNodes := [], StorageNodes := [], SpaceNames := [], BackendUrl := "" }

/-! ## Declarations as data -/

/-- The Go types that occur in `config.go`. -/
inductive GoType where
  | string : GoType
  | named : String → GoType
  | slice : GoType → GoType
  deriving DecidableEq, Repr

/-- One field of a struct declaration: name, type, raw tag text. -/
structure StructField where
  name : String
  type : GoType
  tag : String
  deriving DecidableEq, Repr

/-- A struct declaration: its name and its fields in declaration order. -/
structure StructDecl where
  name : String
  fields : List StructField
  deriving DecidableEq, Repr

/-- Declaration of `NodeInfo` (config.go lines 3-8). -/
def NodeInfo.decl : StructDecl :=
  { name := "NodeInfo"
    fields :=
      [ { name := "Addrs", type := GoType.string, tag := "yaml:\"addrs\"" },
        { name := "RootDir", type := GoType.string, tag := "yaml:\"root\"" },
        { name := "DataDir", type := GoType.string, tag := "yaml:\"data\"" },
        { name := "User", type := GoType.string, tag := "yaml:\"user\"" } ] }

/-- Declaration of `BackupConfig` (config.go lines 10-15). -/
def BackupConfig.decl : StructDecl :=
  { name := "BackupConfig"
    fields :=
      [ { name := "MetaNodes", type := GoType.slice (GoType.named "NodeInfo"),
          tag := "yaml:\"meta_nodes\"" },
        { name := "StorageNodes", type := GoType.slice (GoType.named "NodeInfo"),
          tag := "yaml:\"storage_nodes\"" },
        { name := "SpaceNames", type := GoType.slice GoType.string,
          tag := "yaml:\"space_names\"" },
        { name := "BackendUrl", type := GoType.string, tag := "yaml:\"backend\"" } ] }

/-- Declaration of `RestoreConfig` (config.go lines 17-23). -/
def RestoreConfig.decl : StructDecl :=
  { name := "RestoreConfig"
    fields :=
      [ { name := "MetaNodes", type := GoType.slice (GoType.named "NodeInfo"),
          tag := "yaml:\"meta_nodes,flow\"" },
        { name := "StorageNodes", type := GoType.slice (GoType.named "NodeInfo"),
          tag := "yaml:\"storage_nodes,flow\"" },
        { name := "BackendUrl", type := GoType.string, tag := "yaml:\"backend\"" },
        { name := "BackupName", type := GoType.string, tag := "yaml:\"backup_name\"" } ] }

/-- The three declarations of the file, in source order. -/
def allDecls : List StructDecl :=
  [NodeInfo.decl, BackupConfig.decl, RestoreConfig.decl]

/-! ## Reading a struct tag

A Go struct tag is a space separated sequence of `key:"value"` pairs.  The
value stored under the key `yaml` is a comma separated list: the first item is
the YAML key of the field, the remaining items are options (`omitempty`,
`flow`, `inline`). -/

/-- The double quote character. -/
def dquote : Char := Char.ofNat 34

/-- The backslash character. -/
def bslash : Char := Char.ofNat 92

/-- Characters allowed in the key of a `key:"value"` pair: anything above the
space character other than the colon, the double quote and DEL. -/
def isTagNameChar (c : Char) : Bool :=
  decide (32 < c.toNat) && c != ':' && c != dquote && decide (c.toNat ≠ 127)

/-- Scans a quoted value whose opening quote has been consumed: returns the
text up to the closing quote and what follows it.  `none` when the quote is
never closed, or when the value holds a backslash escape (none occurs in
`config.go`; escapes are outside this model). -/
def scanQuoted : List Char → Option (List Char × List Char)
  | [] => none
  | c :: rest =>
    if c = dquote then some ([], rest)
    else if c = bslash then none
    else
      match scanQuoted rest with
      | none => none
      | some (v, r) => some (c :: v, r)

/-- The loop of a tag lookup: skip blanks, read `name:"value"`, return the
value when `name` is the key looked for, otherwise go on after the pair.  The
fuel bounds the number of pairs; the length of the tag is always enough. -/
def lookupLoop (key : List Char) : Nat → List Char → Option (List Char)
  | 0, _ => none
  | fuel + 1, tag =>
    let t := tag.dropWhile (fun c => c == ' ')
    let name := t.takeWhile isTagNameChar
    match t.dropWhile isTagNameChar with
    | colon :: q :: rest =>
      if name.isEmpty || colon != ':' || q != dquote then none
      else
        match scanQuoted rest with
        | none => none
        | some (v, rest2) => if name = key then some v else lookupLoop key fuel rest2
    | _ => none

/-- Value stored in a raw tag under a key, `none` when the key is absent. -/
def tagLookup (key : String) (tag : String) : Option String :=
  (lookupLoop key.toList tag.length tag.toList).map String.mk

/-- Splits a text at every comma (the result is never empty). -/
def splitComma : List Char → List (List Char)
  | [] => [[]]
  | c :: cs =>
    match splitComma cs with
    | [] => [[]]
    | p :: ps => if c = ',' then [] :: p :: ps else (c :: p) :: ps

/-- The text stored under the key `yaml` in the tag of a field (empty when the
field has no such tag). -/
def yamlTag (f : StructField) : String :=
  (tagLookup "yaml" f.tag).getD ""

/-- The YAML key of a field: the `yaml` tag text before any comma. -/
def yamlKey (f : StructField) : String :=
  String.mk ((splitComma (yamlTag f).toList).headD [])

/-- The tag options of a field: the comma separated items after the key. -/
def tagOptions (f : StructField) : List String :=
  ((splitComma (yamlTag f).toList).tail).map String.mk

/-- The field of a declaration with a given Go name, if any. -/
def StructDecl.field? (d : StructDecl) (name : String) : Option StructField :=
  d.fields.find? (fun f => f.name == name)

/-- The fields of a declaration that a given YAML key selects. -/
def StructDecl.fieldsOfKey (d : StructDecl) (key : String) : List StructField :=
  d.fields.filter (fun f => yamlKey f == key)

/-- The YAML keys of a declaration, in field order. -/
def StructDecl.keys (d : StructDecl) : List String :=
  d.fields.map yamlKey

/-- Every YAML key used by the three declarations (with repetitions). -/
def usedKeys : List String :=
  allDecls.flatMap StructDecl.keys

/-- Whether a field carries a given tag option. -/
def hasOption (f : StructField) (o : String) : Bool :=
  decide (o ∈ tagOptions f)

/-- The keys written for a value of a declared type when it is encoded: a
field is left out only when it carries `omitempty` and its value is empty.
`isEmpty` tells which fields of the value are empty. -/
def StructDecl.encodedKeys (d : StructDecl) (isEmpty : StructField → Bool) : List String :=
  (d.fields.filter (fun f => !(hasOption f "omitempty" && isEmpty f))).map yamlKey

/-- Modelled from the spec: the invariant of section 3 on a `BackupConfig`,
"metaNodes non-empty".  `config.go` has no validation function; a loader is
expected to establish it. -/
def BackupConfig.valid (cfg : BackupConfig) : Bool :=
  !cfg.MetaNodes.isEmpty

/-- The space names of a configuration read as a set. -/
def BackupConfig.spaceSet (cfg : BackupConfig) : Finset String :=
  cfg.SpaceNames.toFinset

/-! ## Sample values -/

/-- A meta node. -/
def sampleMeta : NodeInfo :=
  { Addrs := "127.0.0.1:9559", RootDir := "/opt/meta", DataDir := "/data/meta", User := "nebula" }

/-- A storage node. -/
def sampleStorage : NodeInfo :=
  { Addrs := "127.0.0.1:9779", RootDir := "/opt/storage", DataDir := "/data/storage",
    User := "nebula" }

/-- A backup configuration that names the same space twice. -/
def cfgRepeatedSpace : BackupConfig :=
  { MetaNodes := [sampleMeta], StorageNodes := [sampleStorage], SpaceNames := ["s1", "s1"],
    BackendUrl := "local:///backup" }

/-- A backup configuration of the spaces `s1`, `s2`. -/
def cfgSpaces12 : BackupConfig :=
  { MetaNodes := [sampleMeta], StorageNodes := [sampleStorage], SpaceNames := ["s1", "s2"],
    BackendUrl := "local:///backup" }

/-- The same configuration with the two space names in the other order. -/
def cfgSpaces21 : BackupConfig :=
  { MetaNodes := [sampleMeta], StorageNodes := [sampleStorage], SpaceNames := ["s2", "s1"],
    BackendUrl := "local:///backup" }

end Config

/-! # Orchestrator

`config.go` declares only the configuration types.  The operations that
consume them, `CreateBackup` and `RestoreBackup`, are described by the
specification (sections 4.1 to 4.4, 5 and 7) and are modelled here from that
description.  Everything outside the orchestrator (node control endpoints,
the registry, the backend) is an explicit environment of outcomes, so that a
run is a pure function of the configuration and of those outcomes. -/

namespace Orchestrator
open Config

/-- Modelled from the spec: outcome of resolving a `NodeInfo` in the NodeTarget
Registry (4.1): a live session, `Unreachable`, or `AuthRejected`. -/
inductive SessionOutcome where
  | ok : SessionOutcome
  | unreachable : SessionOutcome
  | authRejected : SessionOutcome
  deriving DecidableEq, Repr

/-- Modelled from the spec: failures of the Backend Transporter (4.3). -/
inductive TransferError where
  | TransportError : TransferError
  | IntegrityError : TransferError
  | BackendUnavailable : TransferError
  deriving DecidableEq, Repr

/-- Modelled from the spec: outcome of `Push(localPath, backendUrl)` (4.3): an
artifact reference with its verified checksum, or a transfer failure. -/
inductive PushOutcome where
  | ok : String → Nat → PushOutcome
  | failed : TransferError → PushOutcome
  deriving DecidableEq, Repr

/-- Modelled from the spec: the derived record `BackupManifest` of section 3,
`{name, createdAt, spaceNames, perNodeArtifactRefs, checksums}`. -/
structure BackupManifest where
  name : String
  createdAt : Nat
  spaceNames : List String
  perNodeArtifactRefs : List (NodeInfo × String)
  checksums : List (NodeInfo × Nat)
  deriving DecidableEq, Repr

/-- Modelled from the spec: the two roles a configured node can have. -/
inductive Role where
  | metaNode : Role
  | storageNode : Role
  deriving DecidableEq, Repr

/-- Modelled from the spec: the control commands of a node session (4.1). -/
inductive Command where
  | snapshotBegin : Command
  | snapshotCommit : Command
  | snapshotAbort : Command
  | stageArtifact : Command
  | loadArtifact : Command
  deriving DecidableEq, Repr

/-- Modelled from the spec: what a run does to the outside world, in order: a
control command issued to a node in a role, a push of a node artifact, a pull
of an artifact to a node, the persisting of the manifest of a given name. -/
inductive Event where
  | control : Command → Role → NodeInfo → Event
  | push : NodeInfo → Event
  | pull : String → NodeInfo → Event
  | persist : String → Event
  deriving DecidableEq, Repr

/-- Modelled from the spec: the error taxonomy of section 7 as far as
`CreateBackup` can return it. -/
inductive BackupError where
  | TopologyError : List NodeInfo → BackupError
  | AuthRejected : List NodeInfo → BackupError
  | PartialFailure : List NodeInfo → List NodeInfo → BackupError
  | Transfer : TransferError → BackupError
  | NameConflict : BackupError
  deriving DecidableEq, Repr

/-- Modelled from the spec: result of `CreateBackup`: the manifest, or an
error. -/
inductive BackupResult where
  | manifest : BackupManifest → BackupResult
  | failed : BackupError → BackupResult
  deriving DecidableEq, Repr

/-- Modelled from the spec: everything `CreateBackup` observes from outside:
the registry outcome per node, whether each node acknowledges
`snapshot-begin` and `snapshot-commit`, the outcome of pushing each node
artifact, the outcome of writing the manifest object to the backend (`none`
is success), the spaces that exist, the policy on unreachable storage nodes
(4.2 step 1), and the name and time stamp given to the manifest.  A call that
times out is a call that fails; cancelling a run from outside is not part of
the model. -/
structure BackupEnv where
  resolve : NodeInfo → SessionOutcome
  beginOk : NodeInfo → Bool
  commitOk : NodeInfo → Bool
  push : NodeInfo → PushOutcome
  persist : BackupManifest → Option TransferError
  allSpaces : List String
  tolerateStorageUnreachable : Bool
  backupName : String
  now : Nat

/-- Modelled from the spec: a finished run of `CreateBackup`: its result, the
storage nodes left out with a warning, the events in order, and the manifests
persisted at the backend afterwards. -/
structure BackupRun where
  result : BackupResult
  warnings : List NodeInfo
  events : List Event
  store : List BackupManifest

/-- Modelled from the spec: the nodes a backup run targets once step 1 of 4.2
has passed: every meta node and every storage node with a live session. -/
def targets (env : BackupEnv) (cfg : BackupConfig) : List NodeInfo :=
  cfg.MetaNodes ++ cfg.StorageNodes.filter (fun n => env.resolve n == SessionOutcome.ok)

/-- Modelled from the spec: the space set of a run: `spaceNames`, or all
spaces when it is empty (section 3). -/
def backupSpaces (env : BackupEnv) (cfg : BackupConfig) : List String :=
  if cfg.SpaceNames.isEmpty then env.allSpaces else cfg.SpaceNames

/-- Modelled from the spec: step 5 of 4.2 seen from one node: the artifact
reference and checksum of a successful push. -/
def pushedRef (env : BackupEnv) (n : NodeInfo) : Option (String × Nat) :=
  match env.push n with
  | PushOutcome.ok r c => some (r, c)
  | PushOutcome.failed _ => none

/-- Modelled from the spec: the first transfer failure among the pushes of a
list of nodes, if any. -/
def firstPushError (env : BackupEnv) : List NodeInfo → Option TransferError
  | [] => none
  | n :: ns =>
    match env.push n with
    | PushOutcome.failed e => some e
    | PushOutcome.ok _ _ => firstPushError env ns

/-- Modelled from the spec: step 6 of 4.2, the manifest assembled from the
pushes of the targeted nodes. -/
def assembleManifest (env : BackupEnv) (cfg : BackupConfig) : BackupManifest :=
  { name := env.backupName
    createdAt := env.now
    spaceNames := backupSpaces env cfg
    perNodeArtifactRefs :=
      (targets env cfg).filterMap (fun n => (pushedRef env n).map (fun rc => (n, rc.1)))
    checksums :=
      (targets env cfg).filterMap (fun n => (pushedRef env n).map (fun rc => (n, rc.2))) }

/-- Modelled from the spec: a run that stops with an error: nothing is
persisted, the backend keeps the manifests it had. -/
def BackupRun.stop (e : BackupError) (warnings : List NodeInfo) (events : List Event)
    (store : List BackupManifest) : BackupRun :=
  { result := BackupResult.failed e, warnings := warnings, events := events, store := store }

/-- Modelled from the spec: whether the backend already holds a manifest of a
given name (sections 5 and 6: the destination is exclusive per backup name,
one manifest object per name). -/
def nameHeld (store : List BackupManifest) (name : String) : Bool :=
  store.any (fun m => m.name == name)

/-- Modelled from the spec: the operation `CreateBackup` of 4.2, which is not
part of `config.go`.  `store` is what the backend at `cfg.BackendUrl` holds
before the run.
0. a backup whose name the backend already holds is rejected with
   `NameConflict` (sections 5, 6 and 8), before any node is contacted;
1. resolve every node; an unreachable meta node is a `TopologyError`, an
   unreachable storage node too unless the policy tolerates it, in which case
   it is left out with a warning;
2. `snapshot-begin` to all meta nodes, all must acknowledge;
3. `snapshot-begin` to all targeted storage nodes, all must acknowledge;
4. `snapshot-commit` everywhere; a failure aborts all other nodes;
5. push every committed artifact; a transfer failure ends the run;
6. assemble the manifest and persist it; when the backend refuses the write
   the run fails and nothing is published.
A failed begin or commit phase aborts the acknowledged nodes and returns
`PartialFailure succeeded failed`.  Calls of one phase are concurrent in the
specification; they are listed here in configuration order. -/
def CreateBackup (env : BackupEnv) (store : List BackupManifest) (cfg : BackupConfig) :
    BackupRun :=
  let metaDown := cfg.MetaNodes.filter (fun n => env.resolve n == SessionOutcome.unreachable)
  let storageDown := cfg.StorageNodes.filter (fun n => env.resolve n == SessionOutcome.unreachable)
  let rejected :=
    (cfg.MetaNodes ++ cfg.StorageNodes).filter (fun n => env.resolve n == SessionOutcome.authRejected)
  if nameHeld store env.backupName then BackupRun.stop BackupError.NameConflict [] [] store
  else if !metaDown.isEmpty then BackupRun.stop (BackupError.TopologyError metaDown) [] [] store
  else if !rejected.isEmpty then BackupRun.stop (BackupError.AuthRejected rejected) [] [] store
  else if !storageDown.isEmpty && !env.tolerateStorageUnreachable then
    BackupRun.stop (BackupError.TopologyError storageDown) [] [] store
  else
    let storage := cfg.StorageNodes.filter (fun n => env.resolve n == SessionOutcome.ok)
    let beginMeta := cfg.MetaNodes.map (Event.control Command.snapshotBegin Role.metaNode)
    let metaAck := cfg.MetaNodes.filter env.beginOk
    let metaNak := cfg.MetaNodes.filter (fun n => !env.beginOk n)
    if !metaNak.isEmpty then
      BackupRun.stop (BackupError.PartialFailure metaAck metaNak) storageDown
        (beginMeta ++ metaAck.map (Event.control Command.snapshotAbort Role.metaNode)) store
    else
      let beginStorage := storage.map (Event.control Command.snapshotBegin Role.storageNode)
      let storageAck := storage.filter env.beginOk
      let storageNak := storage.filter (fun n => !env.beginOk n)
      if !storageNak.isEmpty then
        BackupRun.stop (BackupError.PartialFailure (metaAck ++ storageAck) storageNak) storageDown
          (beginMeta ++ beginStorage
            ++ metaAck.map (Event.control Command.snapshotAbort Role.metaNode)
            ++ storageAck.map (Event.control Command.snapshotAbort Role.storageNode)) store
      else
        let commits :=
          cfg.MetaNodes.map (Event.control Command.snapshotCommit Role.metaNode)
            ++ storage.map (Event.control Command.snapshotCommit Role.storageNode)
        let committed := (cfg.MetaNodes ++ storage).filter env.commitOk
        let uncommitted := (cfg.MetaNodes ++ storage).filter (fun n => !env.commitOk n)
        if !uncommitted.isEmpty then
          BackupRun.stop (BackupError.PartialFailure committed uncommitted) storageDown
            (beginMeta ++ beginStorage ++ commits
              ++ (cfg.MetaNodes.filter env.commitOk).map
                  (Event.control Command.snapshotAbort Role.metaNode)
              ++ (storage.filter env.commitOk).map
                  (Event.control Command.snapshotAbort Role.storageNode)) store
        else
          let pushes := (cfg.MetaNodes ++ storage).map Event.push
          match firstPushError env (cfg.MetaNodes ++ storage) with
          | some e =>
            BackupRun.stop (BackupError.Transfer e) storageDown
              (beginMeta ++ beginStorage ++ commits ++ pushes) store
          | none =>
            let m := assembleManifest env cfg
            match env.persist m with
            | some e =>
              BackupRun.stop (BackupError.Transfer e) storageDown
                (beginMeta ++ beginStorage ++ commits ++ pushes) store
            | none =>
              { result := BackupResult.manifest m
                warnings := storageDown
                events := beginMeta ++ beginStorage ++ commits ++ pushes ++ [Event.persist m.name]
                store := store ++ [m] }

/-! ## Restore -/

/-- Modelled from the spec: how a restore run ends: every node loaded, an
error before any node is staged, or a failure reported with the nodes that
were loaded and the nodes left unloaded (4.4 step 5). -/
inductive RestoreResult where
  | done : RestoreResult
  | BackupNotFound : RestoreResult
  | Unresolved : List NodeInfo → RestoreResult
  | TopologyMismatch : RestoreResult
  | Transfer : TransferError → RestoreResult
  | nodeFailure : List NodeInfo → List NodeInfo → RestoreResult
  deriving DecidableEq, Repr

/-- Modelled from the spec: everything `RestoreBackup` observes from outside:
the registry outcome per node, the optional mapping policy that assigns the
artifacts of a manifest to the target nodes, the outcome of pulling an
artifact to a node (`none` is success), and whether each node accepts
`stage-artifact` and `load-artifact`. -/
structure RestoreEnv where
  resolve : NodeInfo → SessionOutcome
  mappingPolicy : Option (List (NodeInfo × String) → List NodeInfo → List (NodeInfo × String))
  pull : String → NodeInfo → Option TransferError
  stageOk : NodeInfo → Bool
  loadOk : NodeInfo → Bool

/-- Modelled from the spec: a finished run of `RestoreBackup`: its result and
the events in order. -/
structure RestoreRun where
  result : RestoreResult
  events : List Event

/-- Modelled from the spec: step 2 of 4.4, the artifacts of the manifest
assigned to the target nodes as (target, artifact) pairs.  With a mapping
policy the policy decides; without one the mapping is positional by list
order and fails when the counts differ. -/
def assignArtifacts (env : RestoreEnv) (m : BackupManifest) (nodes : List NodeInfo) :
    Option (List (NodeInfo × String)) :=
  match env.mappingPolicy with
  | some policy => some (policy m.perNodeArtifactRefs nodes)
  | none =>
    if m.perNodeArtifactRefs.length = nodes.length then
      some (nodes.zip (m.perNodeArtifactRefs.map Prod.snd))
    else none

/-- Modelled from the spec: the first failure among the pulls of the assigned
artifacts, if any. -/
def firstPullError (env : RestoreEnv) : List (NodeInfo × String) → Option TransferError
  | [] => none
  | (n, r) :: rest =>
    match env.pull r n with
    | some e => some e
    | none => firstPullError env rest

/-- Modelled from the spec: step 4 of 4.4 for one node: `stage-artifact`, then
`load-artifact` once staging succeeded. -/
def loadCalls (env : RestoreEnv) (role : Role) (n : NodeInfo) : List Event :=
  if env.stageOk n then
    [Event.control Command.stageArtifact role n, Event.control Command.loadArtifact role n]
  else [Event.control Command.stageArtifact role n]

/-- Modelled from the spec: whether a node ends the load phase loaded. -/
def loaded (env : RestoreEnv) (n : NodeInfo) : Bool :=
  env.stageOk n && env.loadOk n

/-- Modelled from the spec: the operation `RestoreBackup` of 4.4, which is not
part of `config.go`.  `store` is what the backend at `cfg.BackendUrl` holds.
1. fetch the manifest named `cfg.BackupName`, `BackupNotFound` if absent;
2. resolve the target nodes and assign the artifacts to them;
3. pull every assigned artifact to its node;
4. stage and load every meta node; then, once the meta phase has succeeded
   for all of them (section 5: a phase starts only after the prior phase has
   a definitive outcome), stage and load every storage node;
5. a node failure ends the run with the nodes loaded and the nodes left
   unloaded; loaded nodes are not rolled back.
Calls of one phase are concurrent in the specification; they are listed here
in configuration order. -/
def RestoreBackup (env : RestoreEnv) (store : List BackupManifest) (cfg : RestoreConfig) :
    RestoreRun :=
  match store.find? (fun m => m.name == cfg.BackupName) with
  | none => { result := RestoreResult.BackupNotFound, events := [] }
  | some m =>
    let nodes := cfg.MetaNodes ++ cfg.StorageNodes
    let down := nodes.filter (fun n => env.resolve n != SessionOutcome.ok)
    if !down.isEmpty then { result := RestoreResult.Unresolved down, events := [] }
    else
      match assignArtifacts env m nodes with
      | none => { result := RestoreResult.TopologyMismatch, events := [] }
      | some assigned =>
        let pulls := assigned.map (fun a => Event.pull a.2 a.1)
        match firstPullError env assigned with
        | some e => { result := RestoreResult.Transfer e, events := pulls }
        | none =>
          let metaCalls := cfg.MetaNodes.flatMap (loadCalls env Role.metaNode)
          let metaLoaded := cfg.MetaNodes.filter (loaded env)
          let metaUnloaded := cfg.MetaNodes.filter (fun n => !loaded env n)
          if !metaUnloaded.isEmpty then
            { result := RestoreResult.nodeFailure metaLoaded (metaUnloaded ++ cfg.StorageNodes)
              events := pulls ++ metaCalls }
          else
            let storageCalls := cfg.StorageNodes.flatMap (loadCalls env Role.storageNode)
            let storageLoaded := cfg.StorageNodes.filter (loaded env)
            let storageUnloaded := cfg.StorageNodes.filter (fun n => !loaded env n)
            if !storageUnloaded.isEmpty then
              { result := RestoreResult.nodeFailure (metaLoaded ++ storageLoaded) storageUnloaded
                events := pulls ++ metaCalls ++ storageCalls }
            else
              { result := RestoreResult.done
                events := pulls ++ metaCalls ++ storageCalls }

/-- Modelled from the spec: the event that issues `load-artifact` to a node in
a role. -/
def loadEvent (role : Role) (n : NodeInfo) : Event :=
  Event.control Command.loadArtifact role n

/-! ## Sample environments -/

/-- An environment in which every node is reachable, acknowledges begin and
commit, and every push succeeds. -/
def envAllOk : BackupEnv :=
  { resolve := fun _ => SessionOutcome.ok
    beginOk := fun _ => true
    commitOk := fun _ => true
    push := fun n => PushOutcome.ok n.DataDir 7
    persist := fun _ => none
    allSpaces := ["s1", "s2", "s3"]
    tolerateStorageUnreachable := false
    backupName := "nightly"
    now := 1 }

/-- As `envAllOk`, but the storage node refuses `snapshot-commit`. -/
def envCommitRefused : BackupEnv :=
  { envAllOk with commitOk := fun n => n != sampleStorage }

/-- As `envAllOk`, but the meta node does not acknowledge `snapshot-begin`. -/
def envBeginRefused : BackupEnv :=
  { envAllOk with beginOk := fun n => n != sampleMeta }

/-- As `envAllOk`, but the backend is unavailable for every push. -/
def envBackendDown : BackupEnv :=
  { envAllOk with push := fun _ => PushOutcome.failed TransferError.BackendUnavailable }

/-- As `envAllOk`, but the backend refuses the write of the manifest. -/
def envPersistRefused : BackupEnv :=
  { envAllOk with persist := fun _ => some TransferError.BackendUnavailable }

/-- The manifest of a backup of the sample cluster. -/
def sampleManifest : BackupManifest :=
  { name := "nightly", createdAt := 1, spaceNames := ["s1", "s2"]
    perNodeArtifactRefs := [(sampleMeta, "/data/meta"), (sampleStorage, "/data/storage")]
    checksums := [(sampleMeta, 7), (sampleStorage, 7)] }

/-- A restore of `nightly` onto the sample cluster. -/
def sampleRestore : RestoreConfig :=
  { MetaNodes := [sampleMeta], StorageNodes := [sampleStorage],
    BackendUrl := "local:///backup", BackupName := "nightly" }

/-- A restore environment in which every call succeeds and no mapping policy
is supplied. -/
def restoreAllOk : RestoreEnv :=
  { resolve := fun _ => SessionOutcome.ok
    mappingPolicy := none
    pull := fun _ _ => none
    stageOk := fun _ => true
    loadOk := fun _ => true }

end Orchestrator

/-! # Theorems about the schema -/

namespace Config

/-- The keys of the three declarations, computed from the raw tags. -/
theorem nodeInfo_keys : NodeInfo.decl.keys = ["addrs", "root", "data", "user"] := by decide

theorem backupConfig_keys :
    BackupConfig.decl.keys = ["meta_nodes", "storage_nodes", "space_names", "backend"] := by
  decide

theorem restoreConfig_keys :
    RestoreConfig.decl.keys = ["meta_nodes", "storage_nodes", "backend", "backup_name"] := by
  decide

theorem usedKeys_eq :
    usedKeys = ["addrs", "root", "data", "user", "meta_nodes", "storage_nodes", "space_names",
      "backend", "meta_nodes", "storage_nodes", "backend", "backup_name"] := by
  decide

/-- A key selects as many fields as it occurs among the keys. -/
theorem fieldsOfKey_length (d : StructDecl) (k : String) :
    (d.fieldsOfKey k).length = d.keys.count k := by
  unfold StructDecl.fieldsOfKey StructDecl.keys
  induction d.fields with
  | nil => rfl
  | cons f fs ih =>
    by_cases h : yamlKey f = k
    · simp [List.filter_cons, List.count_cons, h, ih]
    · simp [List.filter_cons, List.count_cons, h, ih]

/-- C1: the YAML key of every field of NodeInfo, BackupConfig and RestoreConfig
is the one listed (Addrs->addrs, RootDir->root, DataDir->data, User->user;
MetaNodes->meta_nodes, StorageNodes->storage_nodes, SpaceNames->space_names,
BackendUrl->backend; BackupName->backup_name), and the keys used across the
three types are exactly the nine listed names. -/
theorem C1_yaml_keys_as_listed :
    NodeInfo.decl.fields.map (fun f => (f.name, yamlKey f))
        = [("Addrs", "addrs"), ("RootDir", "root"), ("DataDir", "data"), ("User", "user")]
    ∧ BackupConfig.decl.fields.map (fun f => (f.name, yamlKey f))
        = [("MetaNodes", "meta_nodes"), ("StorageNodes", "storage_nodes"),
           ("SpaceNames", "space_names"), ("BackendUrl", "backend")]
    ∧ RestoreConfig.decl.fields.map (fun f => (f.name, yamlKey f))
        = [("MetaNodes", "meta_nodes"), ("StorageNodes", "storage_nodes"),
           ("BackendUrl", "backend"), ("BackupName", "backup_name")]
    ∧ (∀ k : String, k ∈ usedKeys ↔
        k ∈ ["addrs", "root", "data", "user", "meta_nodes", "storage_nodes", "space_names",
             "backend", "backup_name"])
    ∧ usedKeys.toFinset.card = 9 := by
  refine ⟨by decide, by decide, by decide, ?_, ?_⟩
  · intro k
    rw [usedKeys_eq]
    simp only [List.mem_cons, List.mem_singleton, List.not_mem_nil, or_false]
    tauto
  · rw [usedKeys_eq]
    decide

/-- C2: RestoreConfig has exactly the four components MetaNodes and
StorageNodes (slices of NodeInfo), BackendUrl and BackupName (strings); the
first three are in BackupConfig with the same type and the same YAML key;
BackupName is added; RestoreConfig has no SpaceNames and BackupConfig has no
BackupName. -/
theorem C2_restore_config_components :
    RestoreConfig.decl.fields.map (fun f => (f.name, f.type))
        = [("MetaNodes", GoType.slice (GoType.named "NodeInfo")),
           ("StorageNodes", GoType.slice (GoType.named "NodeInfo")),
           ("BackendUrl", GoType.string), ("BackupName", GoType.string)]
    ∧ RestoreConfig.decl.fields.length = 4
    ∧ (∀ r : RestoreConfig,
        r = RestoreConfig.mk r.MetaNodes r.StorageNodes r.BackendUrl r.BackupName)
    ∧ (∀ name ∈ ["MetaNodes", "StorageNodes", "BackendUrl"],
        (BackupConfig.decl.field? name).isSome = true
        ∧ (BackupConfig.decl.field? name).map (fun f => (f.type, yamlKey f))
            = (RestoreConfig.decl.field? name).map (fun f => (f.type, yamlKey f)))
    ∧ (RestoreConfig.decl.field? "BackupName").isSome = true
    ∧ BackupConfig.decl.field? "BackupName" = none
    ∧ "backup_name" ∉ BackupConfig.decl.keys
    ∧ RestoreConfig.decl.field? "SpaceNames" = none
    ∧ "space_names" ∉ RestoreConfig.decl.keys
    ∧ (BackupConfig.decl.field? "SpaceNames").isSome = true := by
  refine ⟨by decide, by decide, fun r => rfl, by decide, by decide, by decide, by decide,
    by decide, by decide, by decide⟩

/-- C3 (as stated, refuted): the zero value of `BackupConfig` has a MetaNodes
list of length 0, so it is not true that every value of the declared type has
a non-empty MetaNodes. -/
theorem C3_zero_value_has_no_meta_nodes :
    zeroBackupConfig.MetaNodes.length = 0
    ∧ ¬ (∀ cfg : BackupConfig, cfg.MetaNodes.length ≠ 0) := by
  refine ⟨rfl, fun h => h zeroBackupConfig rfl⟩

/-- C3 (amended): the declared type does not constrain MetaNodes: every list
of NodeInfo, the empty one included, is the MetaNodes of some BackupConfig;
the invariant "metaNodes non-empty" holds of a value exactly when its
MetaNodes has a positive length, and fails for the zero value. -/
theorem C3_meta_nodes_nonempty_is_a_validity_condition :
    (∀ ms : List NodeInfo, ∃ cfg : BackupConfig, cfg.MetaNodes = ms)
    ∧ (∀ cfg : BackupConfig, cfg.valid = true ↔ 0 < cfg.MetaNodes.length)
    ∧ zeroBackupConfig.valid = false := by
  refine ⟨fun ms => ⟨⟨ms, [], [], ""⟩, rfl⟩, fun cfg => ?_, rfl⟩
  cases h : cfg.MetaNodes <;> simp [BackupConfig.valid, h]

/-- C4 (as stated, refuted): a BackupConfig can name a space twice, and two
BackupConfig values that differ only in the order of SpaceNames are different
values. -/
theorem C4_space_names_repeat_and_order :
    ¬ cfgRepeatedSpace.SpaceNames.Nodup
    ∧ (cfgSpaces12.SpaceNames.Perm cfgSpaces21.SpaceNames
        ∧ cfgSpaces12.MetaNodes = cfgSpaces21.MetaNodes
        ∧ cfgSpaces12.StorageNodes = cfgSpaces21.StorageNodes
        ∧ cfgSpaces12.BackendUrl = cfgSpaces21.BackendUrl
        ∧ cfgSpaces12 ≠ cfgSpaces21) := by
  decide

/-- C4 (amended): SpaceNames is declared as a slice of strings, an ordered
sequence in which a name may repeat; two BackupConfig values are the same
exactly when their four fields are equal, SpaceNames compared as a sequence;
read as a set, SpaceNames does not depend on the order or on repetitions:
values whose SpaceNames are permutations of each other have the same space
set. -/
theorem C4_space_names_is_a_sequence :
    (BackupConfig.decl.field? "SpaceNames").map (fun f => f.type)
        = some (GoType.slice GoType.string)
    ∧ (∀ c₁ c₂ : BackupConfig, c₁ = c₂ ↔
        (c₁.MetaNodes = c₂.MetaNodes ∧ c₁.StorageNodes = c₂.StorageNodes
          ∧ c₁.SpaceNames = c₂.SpaceNames ∧ c₁.BackendUrl = c₂.BackendUrl))
    ∧ (∀ c : BackupConfig, ∀ s : String, s ∈ c.spaceSet ↔ s ∈ c.SpaceNames)
    ∧ (∀ c₁ c₂ : BackupConfig, c₁.SpaceNames.Perm c₂.SpaceNames → c₁.spaceSet = c₂.spaceSet) := by
  refine ⟨by decide, fun c₁ c₂ => ?_, fun c s => ?_, fun c₁ c₂ h => ?_⟩
  · constructor
    · rintro rfl
      exact ⟨rfl, rfl, rfl, rfl⟩
    · rintro ⟨h₁, h₂, h₃, h₄⟩
      cases c₁
      cases c₂
      simp_all
  · simp [BackupConfig.spaceSet]
  · exact List.toFinset_eq_of_perm _ _ h

/-- C4 (amended), applied: the two sample configurations that list `s1`, `s2`
in opposite orders have the same space set. -/
theorem C4_space_names_is_a_sequence_witness :
    cfgSpaces12.SpaceNames.Perm cfgSpaces21.SpaceNames
    ∧ cfgSpaces12.spaceSet = cfgSpaces21.spaceSet :=
  ⟨by decide, C4_space_names_is_a_sequence.2.2.2 cfgSpaces12 cfgSpaces21 (by decide)⟩

/-- C8: within each of NodeInfo, BackupConfig and RestoreConfig the YAML keys
are pairwise distinct: the map from field to key is injective and a key
selects at most one field; the keys shared by BackupConfig and RestoreConfig
are meta_nodes, storage_nodes and backend, and NodeInfo shares none. -/
theorem C8_keys_distinct_within_each_type :
    (∀ d ∈ allDecls, d.keys.Nodup)
    ∧ (∀ d ∈ allDecls, ∀ f ∈ d.fields, ∀ g ∈ d.fields, yamlKey f = yamlKey g → f = g)
    ∧ (∀ d ∈ allDecls, ∀ k : String, (d.fieldsOfKey k).length ≤ 1)
    ∧ (∀ k : String, (k ∈ BackupConfig.decl.keys ∧ k ∈ RestoreConfig.decl.keys) ↔
        k ∈ ["meta_nodes", "storage_nodes", "backend"])
    ∧ (∀ k ∈ NodeInfo.decl.keys, k ∉ BackupConfig.decl.keys ∧ k ∉ RestoreConfig.decl.keys) := by
  have hn : ∀ d ∈ allDecls, d.keys.Nodup := by decide
  refine ⟨hn, by decide, fun d hd k => ?_, fun k => ?_, by decide⟩
  · rw [fieldsOfKey_length]
    exact List.nodup_iff_count_le_one.mp (hn d hd) k
  · rw [backupConfig_keys, restoreConfig_keys]
    simp only [List.mem_cons, List.mem_singleton, List.not_mem_nil, or_false]
    constructor
    · rintro ⟨h₁, h₂⟩
      rcases h₁ with h | h | h | h <;> subst h <;> simp at h₂ ⊢
    · rintro (h | h | h) <;> subst h <;> simp

/-- C8, applied: in RestoreConfig the key `backend` selects the field
BackendUrl and no other. -/
theorem C8_keys_distinct_within_each_type_witness :
    RestoreConfig.decl ∈ allDecls
    ∧ (RestoreConfig.decl.fieldsOfKey "backend").length ≤ 1
    ∧ (RestoreConfig.decl.fieldsOfKey "backend").map (fun f => f.name) = ["BackendUrl"] :=
  ⟨by decide, C8_keys_distinct_within_each_type.2.2.1 RestoreConfig.decl (by decide) "backend",
    by decide⟩

/-- C9: the only tag option in use is `flow`, carried by exactly
RestoreConfig.MetaNodes and RestoreConfig.StorageNodes; no field carries
`omitempty` or `inline`, so encoding a value writes every key whatever fields
are empty; the node lists of BackupConfig and RestoreConfig have the same key
and the same type and differ only in the flow option. -/
theorem C9_flow_is_the_only_option :
    (∀ d ∈ allDecls, ∀ f ∈ d.fields, ∀ o ∈ tagOptions f, o = "flow")
    ∧ (allDecls.flatMap (fun d =>
          (d.fields.filter (fun f => hasOption f "flow")).map (fun f => (d.name, f.name))))
        = [("RestoreConfig", "MetaNodes"), ("RestoreConfig", "StorageNodes")]
    ∧ (∀ d ∈ allDecls, ∀ f ∈ d.fields,
        hasOption f "omitempty" = false ∧ hasOption f "inline" = false)
    ∧ (∀ d ∈ allDecls, ∀ isEmpty : StructField → Bool, d.encodedKeys isEmpty = d.keys)
    ∧ (∀ name ∈ ["MetaNodes", "StorageNodes"],
        (BackupConfig.decl.field? name).map (fun f => (yamlKey f, f.type))
            = (RestoreConfig.decl.field? name).map (fun f => (yamlKey f, f.type))
        ∧ (BackupConfig.decl.field? name).map tagOptions = some []
        ∧ (RestoreConfig.decl.field? name).map tagOptions = some ["flow"]) := by
  have ho : ∀ d ∈ allDecls, ∀ f ∈ d.fields,
      hasOption f "omitempty" = false ∧ hasOption f "inline" = false := by decide
  refine ⟨by decide, by decide, ho, fun d hd isEmpty => ?_, by decide⟩
  unfold StructDecl.encodedKeys StructDecl.keys
  congr 1
  apply List.filter_eq_self.mpr
  intro f hf
  simp [(ho d hd f hf).1]

/-- C9, applied: encoding a RestoreConfig whose fields are all empty still
writes its four keys. -/
theorem C9_flow_is_the_only_option_witness :
    RestoreConfig.decl ∈ allDecls
    ∧ RestoreConfig.decl.encodedKeys (fun _ => true)
        = ["meta_nodes", "storage_nodes", "backend", "backup_name"] :=
  ⟨by decide,
    (C9_flow_is_the_only_option.2.2.2.1 RestoreConfig.decl (by decide) (fun _ => true)).trans
      restoreConfig_keys⟩

end Config

/-! # Theorems about the orchestrator -/

namespace Orchestrator
open Config

/-- A session outcome that is neither unreachable nor rejected is a live
session. -/
theorem SessionOutcome.eq_ok_of_ne {o : SessionOutcome}
    (h₁ : o ≠ SessionOutcome.unreachable) (h₂ : o ≠ SessionOutcome.authRejected) :
    o = SessionOutcome.ok := by
  cases o <;> simp_all

/-- A filtered list is non-empty exactly when some element passes. -/
theorem filter_nonempty_iff {α : Type} (p : α → Bool) (l : List α) :
    (!(l.filter p).isEmpty) = true ↔ ∃ a ∈ l, p a = true := by
  induction l with
  | nil => simp
  | cons a l ih =>
    by_cases h : p a = true
    · simp [List.filter_cons, h]
    · simp only [Bool.not_eq_true] at h
      simp [List.filter_cons, h, ih]

/-- The backend holds a name exactly when one of its manifests carries it. -/
theorem nameHeld_eq_false_iff (store : List BackupManifest) (name : String) :
    nameHeld store name = false ↔ ∀ x ∈ store, x.name ≠ name := by
  unfold nameHeld
  rw [← Bool.not_eq_true, List.any_eq_true]
  constructor
  · intro h x hx hn
    exact h ⟨x, hx, by simp [hn]⟩
  · rintro h ⟨x, hx, hn⟩
    exact h x hx (by simpa using hn)

/-- The two ways a run of `CreateBackup` can end: either it fails, and then
the backend holds what it held; or it returns the assembled manifest, the
backend holds that one manifest more, and every step of 4.2 succeeded. -/
theorem createBackup_outcome (env : BackupEnv) (store : List BackupManifest)
    (cfg : BackupConfig) :
    ((∃ e, (CreateBackup env store cfg).result = BackupResult.failed e)
        ∧ (CreateBackup env store cfg).store = store
        ∧ ¬ (nameHeld store env.backupName = false
            ∧ env.persist (assembleManifest env cfg) = none
            ∧ (∀ n ∈ cfg.MetaNodes, env.resolve n = SessionOutcome.ok)
            ∧ (∀ n ∈ cfg.StorageNodes, env.resolve n = SessionOutcome.ok
                ∨ (env.resolve n = SessionOutcome.unreachable
                    ∧ env.tolerateStorageUnreachable = true))
            ∧ (∀ n ∈ targets env cfg, env.beginOk n = true)
            ∧ (∀ n ∈ targets env cfg, env.commitOk n = true)
            ∧ firstPushError env (targets env cfg) = none))
    ∨ ((CreateBackup env store cfg).result = BackupResult.manifest (assembleManifest env cfg)
        ∧ (CreateBackup env store cfg).store = store ++ [assembleManifest env cfg]
        ∧ nameHeld store env.backupName = false
        ∧ env.persist (assembleManifest env cfg) = none
        ∧ (∀ n ∈ cfg.MetaNodes, env.resolve n = SessionOutcome.ok)
        ∧ (∀ n ∈ cfg.StorageNodes, env.resolve n = SessionOutcome.ok
            ∨ (env.resolve n = SessionOutcome.unreachable
                ∧ env.tolerateStorageUnreachable = true))
        ∧ (∀ n ∈ targets env cfg, env.beginOk n = true)
        ∧ (∀ n ∈ targets env cfg, env.commitOk n = true)
        ∧ firstPushError env (targets env cfg) = none) := by
  generalize hr : CreateBackup env store cfg = r
  unfold CreateBackup at hr
  simp only [] at hr
  split at hr
  · rename_i h0
    subst hr
    left
    refine ⟨⟨_, rfl⟩, rfl, ?_⟩
    rintro ⟨hn, -⟩
    rw [h0] at hn
    exact Bool.noConfusion hn
  rename_i h0
  split at hr
  · rename_i h1
    subst hr
    left
    refine ⟨⟨_, rfl⟩, rfl, ?_⟩
    rintro ⟨-, -, hm, -⟩
    obtain ⟨n, hn, hp⟩ := (filter_nonempty_iff _ _).mp h1
    simp [hm n hn] at hp
  rename_i h1
  split at hr
  · rename_i h2
    subst hr
    left
    refine ⟨⟨_, rfl⟩, rfl, ?_⟩
    rintro ⟨-, -, hm, hs, -⟩
    obtain ⟨n, hn, hp⟩ := (filter_nonempty_iff _ _).mp h2
    rcases List.mem_append.mp hn with hn | hn
    · simp [hm n hn] at hp
    · rcases hs n hn with h | ⟨h, -⟩ <;> simp [h] at hp
  rename_i h2
  split at hr
  · rename_i h3
    subst hr
    left
    refine ⟨⟨_, rfl⟩, rfl, ?_⟩
    rintro ⟨-, -, -, hs, -⟩
    rw [Bool.and_eq_true] at h3
    obtain ⟨n, hn, hp⟩ := (filter_nonempty_iff _ _).mp h3.1
    rcases hs n hn with h | ⟨-, h⟩
    · simp [h] at hp
    · simp [h] at h3
  rename_i h3
  split at hr
  · rename_i h4
    subst hr
    left
    refine ⟨⟨_, rfl⟩, rfl, ?_⟩
    rintro ⟨-, -, -, -, hb, -⟩
    obtain ⟨n, hn, hp⟩ := (filter_nonempty_iff _ _).mp h4
    simp [hb n (List.mem_append_left _ hn)] at hp
  rename_i h4
  split at hr
  · rename_i h5
    subst hr
    left
    refine ⟨⟨_, rfl⟩, rfl, ?_⟩
    rintro ⟨-, -, -, -, hb, -⟩
    obtain ⟨n, hn, hp⟩ := (filter_nonempty_iff _ _).mp h5
    simp [hb n (List.mem_append_right _ hn)] at hp
  rename_i h5
  split at hr
  · rename_i h6
    subst hr
    left
    refine ⟨⟨_, rfl⟩, rfl, ?_⟩
    rintro ⟨-, -, -, -, -, hc, -⟩
    obtain ⟨n, hn, hp⟩ := (filter_nonempty_iff _ _).mp h6
    simp [hc n hn] at hp
  rename_i h6
  have e0 : nameHeld store env.backupName = false := by simpa using h0
  have e1 : ∀ n ∈ cfg.MetaNodes, env.resolve n ≠ SessionOutcome.unreachable := by
    intro n hn hu
    exact h1 ((filter_nonempty_iff _ _).mpr ⟨n, hn, by simp [hu]⟩)
  have e2 : ∀ n ∈ cfg.MetaNodes ++ cfg.StorageNodes,
      env.resolve n ≠ SessionOutcome.authRejected := by
    intro n hn hu
    exact h2 ((filter_nonempty_iff _ _).mpr ⟨n, hn, by simp [hu]⟩)
  have hm : ∀ n ∈ cfg.MetaNodes, env.resolve n = SessionOutcome.ok := fun n hn =>
    SessionOutcome.eq_ok_of_ne (e1 n hn) (e2 n (List.mem_append_left _ hn))
  have hs : ∀ n ∈ cfg.StorageNodes, env.resolve n = SessionOutcome.ok
      ∨ (env.resolve n = SessionOutcome.unreachable
          ∧ env.tolerateStorageUnreachable = true) := by
    intro n hn
    by_cases hu : env.resolve n = SessionOutcome.unreachable
    · right
      refine ⟨hu, ?_⟩
      by_contra ht
      apply h3
      rw [Bool.and_eq_true]
      exact ⟨(filter_nonempty_iff _ _).mpr ⟨n, hn, by simp [hu]⟩, by simpa using ht⟩
    · left
      exact SessionOutcome.eq_ok_of_ne hu (e2 n (List.mem_append_right _ hn))
  have hb : ∀ n ∈ targets env cfg, env.beginOk n = true := by
    intro n hn
    by_contra hf
    rcases List.mem_append.mp hn with hn | hn
    · exact h4 ((filter_nonempty_iff _ _).mpr ⟨n, hn, by simpa using hf⟩)
    · exact h5 ((filter_nonempty_iff _ _).mpr ⟨n, hn, by simpa using hf⟩)
  have hc : ∀ n ∈ targets env cfg, env.commitOk n = true := by
    intro n hn
    by_contra hf
    exact h6 ((filter_nonempty_iff _ _).mpr ⟨n, hn, by simpa using hf⟩)
  split at hr
  · rename_i e he
    subst hr
    left
    refine ⟨⟨_, rfl⟩, rfl, ?_⟩
    rintro ⟨-, -, -, -, -, -, hp⟩
    rw [targets, he] at hp
    exact Option.noConfusion hp
  · rename_i he
    split at hr
    · rename_i e hpe
      subst hr
      left
      refine ⟨⟨_, rfl⟩, rfl, ?_⟩
      rintro ⟨-, hp, -⟩
      rw [hpe] at hp
      exact Option.noConfusion hp
    · rename_i hpe
      subst hr
      right
      exact ⟨rfl, rfl, e0, hpe, hm, hs, hb, hc, he⟩

/-- When every push of a list of nodes succeeds there is no first failure. -/
theorem firstPushError_eq_none (env : BackupEnv) (l : List NodeInfo)
    (hp : ∀ n ∈ l, ∃ r c, env.push n = PushOutcome.ok r c) : firstPushError env l = none := by
  induction l with
  | nil => rfl
  | cons a l ih =>
    obtain ⟨r, c, h⟩ := hp a (List.mem_cons_self a l)
    simp only [firstPushError, h]
    exact ih (fun n hn => hp n (List.mem_cons_of_mem a hn))

/-- When every push of a list of nodes succeeds the artifact references name
exactly those nodes, in order. -/
theorem pushed_refs_name_nodes (env : BackupEnv) (l : List NodeInfo)
    (hp : ∀ n ∈ l, ∃ r c, env.push n = PushOutcome.ok r c) :
    (l.filterMap (fun n => (pushedRef env n).map (fun rc => (n, rc.1)))).map Prod.fst = l := by
  induction l with
  | nil => rfl
  | cons a l ih =>
    obtain ⟨r, c, h⟩ := hp a (List.mem_cons_self a l)
    have ih2 := ih (fun n hn => hp n (List.mem_cons_of_mem a hn))
    simp [List.filterMap_cons, pushedRef, h]
    simpa [pushedRef] using ih2

/-- C5: CreateBackup is all-or-nothing at the manifest level.  Whatever the
configuration and the outcomes of the per-node calls: a manifest is returned
only if every targeted node acknowledged begin and commit (every node of the
configuration, except a storage node that was unreachable under a policy
tolerating it), and then the backend holds exactly that manifest more; if a
targeted node fails to begin or to commit the run fails; and a failed run
leaves the backend as it was, no manifest being written. -/
theorem C5_manifest_all_or_nothing (env : BackupEnv) (store : List BackupManifest)
    (cfg : BackupConfig) :
    (∀ m, (CreateBackup env store cfg).result = BackupResult.manifest m →
        (∀ n ∈ targets env cfg, env.beginOk n = true ∧ env.commitOk n = true)
        ∧ (∀ n ∈ cfg.MetaNodes ++ cfg.StorageNodes,
            (env.beginOk n = true ∧ env.commitOk n = true)
            ∨ (n ∈ cfg.StorageNodes ∧ env.resolve n = SessionOutcome.unreachable
                ∧ env.tolerateStorageUnreachable = true))
        ∧ (CreateBackup env store cfg).store = store ++ [m])
    ∧ ((∃ n ∈ targets env cfg, env.beginOk n = false ∨ env.commitOk n = false) →
        (∃ e, (CreateBackup env store cfg).result = BackupResult.failed e)
        ∧ (CreateBackup env store cfg).store = store)
    ∧ (∀ e, (CreateBackup env store cfg).result = BackupResult.failed e →
        (CreateBackup env store cfg).store = store) := by
  rcases createBackup_outcome env store cfg with
    ⟨⟨e, he⟩, hst, -⟩ | ⟨hres, hst, -, -, hm, hs, hb, hc, -⟩
  · refine ⟨fun m hm => ?_, fun _ => ⟨⟨e, he⟩, hst⟩, fun _ _ => hst⟩
    rw [he] at hm
    exact BackupResult.noConfusion hm
  · refine ⟨fun m hmm => ?_, ?_, fun e he => ?_⟩
    · rw [hres] at hmm
      cases hmm
      refine ⟨fun n hn => ⟨hb n hn, hc n hn⟩, fun n hn => ?_, hst⟩
      rcases List.mem_append.mp hn with hn | hn
      · exact Or.inl ⟨hb n (List.mem_append_left _ hn), hc n (List.mem_append_left _ hn)⟩
      · rcases hs n hn with h | ⟨h, ht⟩
        · have ht : n ∈ targets env cfg :=
            List.mem_append_right _ (List.mem_filter.mpr ⟨hn, by simp [h]⟩)
          exact Or.inl ⟨hb n ht, hc n ht⟩
        · exact Or.inr ⟨hn, h, ht⟩
    · rintro ⟨n, hn, h | h⟩
      · rw [hb n hn] at h
        exact Bool.noConfusion h
      · rw [hc n hn] at h
        exact Bool.noConfusion h
    · rw [hres] at he
      exact BackupResult.noConfusion he

/-- C5, applied: when the storage node of the sample cluster refuses to
commit, the run fails and the backend stays empty. -/
theorem C5_manifest_all_or_nothing_witness :
    (∃ n ∈ targets envCommitRefused cfgSpaces12,
        envCommitRefused.beginOk n = false ∨ envCommitRefused.commitOk n = false)
    ∧ (∃ e, (CreateBackup envCommitRefused [] cfgSpaces12).result = BackupResult.failed e)
    ∧ (CreateBackup envCommitRefused [] cfgSpaces12).store = [] :=
  ⟨⟨sampleStorage, by decide, Or.inr (by decide)⟩,
    (C5_manifest_all_or_nothing envCommitRefused [] cfgSpaces12).2.1
      ⟨sampleStorage, by decide, Or.inr (by decide)⟩⟩

/-- C6 (as stated, refuted): with a valid configuration and every node
reachable, no manifest is produced when a reachable node does not acknowledge
begin or refuses to commit, when the backend is unavailable for the pushes or
for the write of the manifest, or when the backend already holds a manifest of
the same name. -/
theorem C6_reachable_nodes_do_not_suffice :
    cfgSpaces12.valid = true
    ∧ (∀ n ∈ cfgSpaces12.MetaNodes ++ cfgSpaces12.StorageNodes,
        envBackendDown.resolve n = SessionOutcome.ok ∧ envBackendDown.beginOk n = true
        ∧ envBackendDown.commitOk n = true)
    ∧ (CreateBackup envBackendDown [] cfgSpaces12).result
        = BackupResult.failed (BackupError.Transfer TransferError.BackendUnavailable)
    ∧ (CreateBackup envBackendDown [] cfgSpaces12).store = []
    ∧ (∀ n ∈ cfgSpaces12.MetaNodes ++ cfgSpaces12.StorageNodes,
        envCommitRefused.resolve n = SessionOutcome.ok)
    ∧ (CreateBackup envCommitRefused [] cfgSpaces12).result
        = BackupResult.failed (BackupError.PartialFailure [sampleMeta] [sampleStorage])
    ∧ (CreateBackup envCommitRefused [] cfgSpaces12).store = []
    ∧ (∀ n ∈ cfgSpaces12.MetaNodes ++ cfgSpaces12.StorageNodes,
        envBeginRefused.resolve n = SessionOutcome.ok)
    ∧ (CreateBackup envBeginRefused [] cfgSpaces12).result
        = BackupResult.failed (BackupError.PartialFailure [] [sampleMeta])
    ∧ (CreateBackup envBeginRefused [] cfgSpaces12).store = []
    ∧ (∀ n ∈ cfgSpaces12.MetaNodes ++ cfgSpaces12.StorageNodes,
        envPersistRefused.resolve n = SessionOutcome.ok)
    ∧ (CreateBackup envPersistRefused [] cfgSpaces12).result
        = BackupResult.failed (BackupError.Transfer TransferError.BackendUnavailable)
    ∧ (CreateBackup envPersistRefused [] cfgSpaces12).store = []
    ∧ (∀ n ∈ cfgSpaces12.MetaNodes ++ cfgSpaces12.StorageNodes,
        envAllOk.resolve n = SessionOutcome.ok)
    ∧ (CreateBackup envAllOk [sampleManifest] cfgSpaces12).result
        = BackupResult.failed BackupError.NameConflict
    ∧ (CreateBackup envAllOk [sampleManifest] cfgSpaces12).store = [sampleManifest] := by
  decide

/-- C6 (amended): for every valid BackupConfig whose nodes are all reachable
and acknowledge snapshot-begin and snapshot-commit, whose artifacts are all
pushed successfully, and whose backend holds no manifest of the name of the
backup and accepts the write of the manifest, CreateBackup produces exactly
one manifest: the backend holds it in addition to what it held, it is the only
manifest of its name there and the one a lookup by that name finds; it names
every node of MetaNodes and StorageNodes (at least one), and its spaces are
SpaceNames, or all spaces when SpaceNames is empty. -/
theorem C6_backup_of_a_healthy_cluster (env : BackupEnv) (store : List BackupManifest)
    (cfg : BackupConfig)
    (hv : cfg.valid = true)
    (hr : ∀ n ∈ cfg.MetaNodes ++ cfg.StorageNodes, env.resolve n = SessionOutcome.ok)
    (hb : ∀ n ∈ cfg.MetaNodes ++ cfg.StorageNodes, env.beginOk n = true)
    (hc : ∀ n ∈ cfg.MetaNodes ++ cfg.StorageNodes, env.commitOk n = true)
    (hp : ∀ n ∈ cfg.MetaNodes ++ cfg.StorageNodes, ∃ r c, env.push n = PushOutcome.ok r c)
    (hfree : ∀ x ∈ store, x.name ≠ env.backupName)
    (hw : env.persist (assembleManifest env cfg) = none) :
    ∃ m, (CreateBackup env store cfg).result = BackupResult.manifest m
      ∧ (CreateBackup env store cfg).store = store ++ [m]
      ∧ m.name = env.backupName
      ∧ (CreateBackup env store cfg).store.filter (fun x => x.name == env.backupName) = [m]
      ∧ (CreateBackup env store cfg).store.find? (fun x => x.name == env.backupName) = some m
      ∧ m.perNodeArtifactRefs.map Prod.fst = cfg.MetaNodes ++ cfg.StorageNodes
      ∧ m.perNodeArtifactRefs ≠ []
      ∧ m.spaceNames = (if cfg.SpaceNames = [] then env.allSpaces else cfg.SpaceNames) := by
  have ht : targets env cfg = cfg.MetaNodes ++ cfg.StorageNodes := by
    unfold targets
    congr 1
    apply List.filter_eq_self.mpr
    intro n hn
    simp [hr n (List.mem_append_right _ hn)]
  have hnames : (assembleManifest env cfg).perNodeArtifactRefs.map Prod.fst
      = cfg.MetaNodes ++ cfg.StorageNodes := by
    show ((targets env cfg).filterMap _).map Prod.fst = _
    rw [ht]
    exact pushed_refs_name_nodes env _ hp
  have hname : (assembleManifest env cfg).name = env.backupName := rfl
  have hold : ∀ x ∈ store, (x.name == env.backupName) = false := by
    intro x hx
    simpa using hfree x hx
  rcases createBackup_outcome env store cfg with ⟨-, -, hneg⟩ | ⟨hres, hst, -⟩
  · exfalso
    apply hneg
    rw [ht]
    exact ⟨(nameHeld_eq_false_iff _ _).mpr hfree, hw,
      fun n hn => hr n (List.mem_append_left _ hn),
      fun n hn => Or.inl (hr n (List.mem_append_right _ hn)), hb, hc,
      firstPushError_eq_none env _ hp⟩
  · refine ⟨assembleManifest env cfg, hres, hst, hname, ?_, ?_, hnames, ?_, ?_⟩
    · rw [hst, List.filter_append]
      have h₁ : store.filter (fun x => x.name == env.backupName) = [] := by
        apply List.filter_eq_nil_iff.mpr
        intro x hx
        simp [hold x hx]
      rw [h₁]
      simp [List.filter_cons, hname]
    · rw [hst, List.find?_append]
      have h₁ : store.find? (fun x => x.name == env.backupName) = none := by
        apply List.find?_eq_none.mpr
        intro x hx
        simp [hold x hx]
      rw [h₁]
      simp [List.find?_cons, hname]
    · intro hnil
      rw [hnil] at hnames
      have : cfg.MetaNodes = [] := (List.append_eq_nil.mp hnames.symm).1
      simp [BackupConfig.valid, this] at hv
    · show backupSpaces env cfg = _
      unfold backupSpaces
      cases h : cfg.SpaceNames <;> simp

/-- C6 (amended), applied: the sample cluster with every call succeeding and
an empty backend. -/
theorem C6_backup_of_a_healthy_cluster_witness :
    cfgSpaces12.valid = true
    ∧ ∃ m, (CreateBackup envAllOk [] cfgSpaces12).result = BackupResult.manifest m
      ∧ (CreateBackup envAllOk [] cfgSpaces12).store = [] ++ [m]
      ∧ m.name = envAllOk.backupName
      ∧ (CreateBackup envAllOk [] cfgSpaces12).store.filter
          (fun x => x.name == envAllOk.backupName) = [m]
      ∧ (CreateBackup envAllOk [] cfgSpaces12).store.find?
          (fun x => x.name == envAllOk.backupName) = some m
      ∧ m.perNodeArtifactRefs.map Prod.fst = cfgSpaces12.MetaNodes ++ cfgSpaces12.StorageNodes
      ∧ m.perNodeArtifactRefs ≠ []
      ∧ m.spaceNames
          = (if cfgSpaces12.SpaceNames = [] then envAllOk.allSpaces else cfgSpaces12.SpaceNames) :=
  ⟨by decide,
    C6_backup_of_a_healthy_cluster envAllOk [] cfgSpaces12 (by decide) (by decide) (by decide)
      (by decide) (fun n _ => ⟨n.DataDir, 7, rfl⟩) (by decide) rfl⟩

/-- The shape of the events of a restore run: pulls only (also when the run
stops before any pull), pulls followed by the meta phase, or pulls followed by
the meta phase and the storage phase, the latter only when every meta node
ended the meta phase loaded. -/
theorem restoreBackup_events (env : RestoreEnv) (store : List BackupManifest)
    (cfg : RestoreConfig) :
    ∃ pulls : List Event, (∀ e ∈ pulls, ∃ r n, e = Event.pull r n)
      ∧ ((RestoreBackup env store cfg).events = pulls
        ∨ (RestoreBackup env store cfg).events
            = pulls ++ cfg.MetaNodes.flatMap (loadCalls env Role.metaNode)
        ∨ ((∀ m ∈ cfg.MetaNodes, loaded env m = true)
            ∧ (RestoreBackup env store cfg).events
                = (pulls ++ cfg.MetaNodes.flatMap (loadCalls env Role.metaNode))
                    ++ cfg.StorageNodes.flatMap (loadCalls env Role.storageNode))) := by
  unfold RestoreBackup
  split
  · exact ⟨[], by simp, Or.inl rfl⟩
  · simp only []
    split
    · exact ⟨[], by simp, Or.inl rfl⟩
    · split
      · exact ⟨[], by simp, Or.inl rfl⟩
      · rename_i assigned _
        have hpull : ∀ e ∈ assigned.map (fun a => Event.pull a.2 a.1),
            ∃ r n, e = Event.pull r n := by
          intro e he
          obtain ⟨a, -, rfl⟩ := List.mem_map.mp he
          exact ⟨a.2, a.1, rfl⟩
        refine ⟨assigned.map (fun a => Event.pull a.2 a.1), hpull, ?_⟩
        split
        · exact Or.inl rfl
        · split
          · exact Or.inr (Or.inl rfl)
          · rename_i h2
            have hall : ∀ n ∈ cfg.MetaNodes, loaded env n = true := by
              intro n hn
              by_contra hf
              exact h2 ((filter_nonempty_iff _ _).mpr ⟨n, hn, by simpa using hf⟩)
            split
            · exact Or.inr (Or.inr ⟨hall, rfl⟩)
            · exact Or.inr (Or.inr ⟨hall, rfl⟩)

/-- The calls of a phase carry the role of the phase. -/
theorem role_of_phase_call (env : RestoreEnv) (role : Role) (nodes : List NodeInfo)
    (c : Command) (r : Role) (n : NodeInfo)
    (h : Event.control c r n ∈ nodes.flatMap (loadCalls env role)) : r = role := by
  obtain ⟨a, -, ha⟩ := List.mem_flatMap.mp h
  unfold loadCalls at ha
  split at ha
  · simp only [List.mem_cons, List.mem_singleton, Event.control.injEq, List.not_mem_nil,
      or_false] at ha
    rcases ha with ⟨-, hr, -⟩ | ⟨-, hr, -⟩ <;> exact hr
  · simp only [List.mem_singleton, Event.control.injEq] at ha
    exact ha.2.1

/-- A node that ends a phase loaded was issued `load-artifact` in it. -/
theorem load_issued_of_loaded (env : RestoreEnv) (role : Role) (nodes : List NodeInfo)
    (n : NodeInfo) (hn : n ∈ nodes) (hl : loaded env n = true) :
    loadEvent role n ∈ nodes.flatMap (loadCalls env role) := by
  refine List.mem_flatMap.mpr ⟨n, hn, ?_⟩
  have hs : env.stageOk n = true := by
    unfold loaded at hl
    exact (Bool.and_eq_true _ _ ▸ hl).1
  simp [loadCalls, hs, loadEvent]

/-- When an event that does not occur in `a` is singled out in `a ++ b`, what
precedes it starts with `a`. -/
theorem prefix_of_split {α : Type} (a b pre post : List α) (x : α) (hx : x ∉ a)
    (h : a ++ b = pre ++ x :: post) : ∃ rest, pre = a ++ rest := by
  rcases List.append_eq_append_iff.mp h with ⟨a', h₁, -⟩ | ⟨c', h₁, h₂⟩
  · exact ⟨a', h₁⟩
  · cases c' with
    | nil => exact ⟨[], by simpa using h₁.symm⟩
    | cons y ys =>
      exfalso
      apply hx
      rw [h₁]
      simp only [List.cons_append, List.cons.injEq] at h₂
      rw [h₂.1]
      simp

/-- C7: in every run of RestoreBackup, whenever `load-artifact` is issued to a
storage node, every meta node of the configuration has been issued
`load-artifact` earlier in the run and has been loaded: meta nodes are loaded
before storage nodes. -/
theorem C7_meta_nodes_loaded_before_storage_nodes (env : RestoreEnv)
    (store : List BackupManifest) (cfg : RestoreConfig) (pre post : List Event) (s : NodeInfo)
    (h : (RestoreBackup env store cfg).events = pre ++ loadEvent Role.storageNode s :: post) :
    s ∈ cfg.StorageNodes
    ∧ ∀ m ∈ cfg.MetaNodes, loadEvent Role.metaNode m ∈ pre ∧ loaded env m = true := by
  have hmem : loadEvent Role.storageNode s ∈ (RestoreBackup env store cfg).events := by
    rw [h]
    simp
  obtain ⟨pulls, hpulls, hcases⟩ := restoreBackup_events env store cfg
  have hnp : loadEvent Role.storageNode s ∉ pulls := by
    intro hin
    obtain ⟨r, n, hrn⟩ := hpulls _ hin
    simp [loadEvent] at hrn
  have hnm : loadEvent Role.storageNode s
      ∉ cfg.MetaNodes.flatMap (loadCalls env Role.metaNode) := by
    intro hin
    have := role_of_phase_call env Role.metaNode cfg.MetaNodes _ _ _ hin
    exact Role.noConfusion this
  rcases hcases with he | he | ⟨hall, he⟩
  · rw [he] at hmem
    exact absurd hmem hnp
  · rw [he] at hmem
    rcases List.mem_append.mp hmem with hmem | hmem
    · exact absurd hmem hnp
    · exact absurd hmem hnm
  · have hna : loadEvent Role.storageNode s
        ∉ pulls ++ cfg.MetaNodes.flatMap (loadCalls env Role.metaNode) := by
      intro hin
      rcases List.mem_append.mp hin with hin | hin
      · exact hnp hin
      · exact hnm hin
    constructor
    · rw [he] at hmem
      rcases List.mem_append.mp hmem with hmem | hmem
      · exact absurd hmem hna
      · obtain ⟨a, ha, hin⟩ := List.mem_flatMap.mp hmem
        have : a = s := by
          unfold loadCalls at hin
          split_ifs at hin <;> simp [loadEvent] at hin
          exact hin.symm
        exact this ▸ ha
    · intro m hm
      obtain ⟨rest, hrest⟩ := prefix_of_split _ _ pre post _ hna (he.symm.trans h)
      refine ⟨?_, hall m hm⟩
      rw [hrest]
      exact List.mem_append_left _
        (List.mem_append_right _ (load_issued_of_loaded env Role.metaNode _ m hm (hall m hm)))

/-- C7, applied: in the restore of the sample cluster the storage node is
issued `load-artifact` as the last event, after the meta node was. -/
theorem C7_meta_nodes_loaded_before_storage_nodes_witness :
    (RestoreBackup restoreAllOk [sampleManifest] sampleRestore).events
        = [Event.pull "/data/meta" sampleMeta, Event.pull "/data/storage" sampleStorage,
            Event.control Command.stageArtifact Role.metaNode sampleMeta,
            loadEvent Role.metaNode sampleMeta,
            Event.control Command.stageArtifact Role.storageNode sampleStorage]
          ++ loadEvent Role.storageNode sampleStorage :: []
    ∧ (sampleStorage ∈ sampleRestore.StorageNodes
      ∧ ∀ m ∈ sampleRestore.MetaNodes,
          loadEvent Role.metaNode m
              ∈ [Event.pull "/data/meta" sampleMeta, Event.pull "/data/storage" sampleStorage,
                  Event.control Command.stageArtifact Role.metaNode sampleMeta,
                  loadEvent Role.metaNode sampleMeta,
                  Event.control Command.stageArtifact Role.storageNode sampleStorage]
            ∧ loaded restoreAllOk m = true) :=
  ⟨by decide,
    C7_meta_nodes_loaded_before_storage_nodes restoreAllOk [sampleManifest] sampleRestore _ []
      sampleStorage (by decide)⟩

end Orchestrator
